import Mathlib

/-!
Verification of the conversation persistence and consistency layer of
`elector_ai` (`src/render/stores/conversatons.ts`), a Pinia store over a
Dexie-style document database with two collections (`conversations`,
`messages`), an in-memory mirror, and persisted sort preferences.

The store actions are embedded as pure state transformers: each `await`ed
database operation is applied to the explicit database state in program
order.  The `Conversation`/`Message` record types (`@common/types`) and the
`dataBase` module are not part of the provided sources, so they are modelled
from the spec's data model (§3) and backing-store contract (§6).
-/

namespace ElectorAI

/-- Modelled from the spec: the `Conversation` record type of
`@common/types` (not under `src/`).  Fields follow spec §3: store-assigned
`id`, display `name`, `model` identifier, `pinned` flag, and
`createdAt`/`updatedAt` timestamps in milliseconds.  Further domain
attributes are opaque to the subsystem (passed through unchanged) and are
not represented. -/
structure Conversation where
  id : Nat
  name : String
  model : String
  pinned : Bool
  createdAt : Nat
  updatedAt : Nat
deriving Repr, DecidableEq

/-- Modelled from the spec: the argument type `Omit<Conversation, 'id'>` of
`addConversation` — a conversation record without an `id`, whose `pinned`
flag may be left unset (spec §3: default `false` if unspecified at
creation). -/
structure ConversationInput where
  name : String
  model : String
  pinned : Option Bool
  createdAt : Nat
  updatedAt : Nat
deriving Repr, DecidableEq

/-- A conversation record without an `id` but with the `pinned` flag
settled — the shape of `conversationWithPin` inside `addConversation`. -/
structure ConversationData where
  name : String
  model : String
  pinned : Bool
  createdAt : Nat
  updatedAt : Nat
deriving Repr, DecidableEq

/-- `{ id, ...conversationWithPin }`: attach a store-assigned id to a
conversation record. -/
def ConversationData.withId (d : ConversationData) (id : Nat) : Conversation :=
  { id := id, name := d.name, model := d.model, pinned := d.pinned,
    createdAt := d.createdAt, updatedAt := d.updatedAt }

/-- Modelled from the spec: the `Message` record type of `@common/types`
(not under `src/`).  Spec §3: unique `id` and a `conversationId` foreign
key; payload fields are opaque and not represented. -/
structure Message where
  id : Nat
  conversationId : Nat
deriving Repr, DecidableEq

/-- Modelled from the spec: the backing document store (`dataBase`, not
under `src/`) per the contract of spec §6 — two record collections and a
store-assigned id counter for `conversations.add`. -/
structure DataBase where
  conversations : List Conversation
  messages : List Message
  nextConversationId : Nat
deriving Repr, DecidableEq

/-- Modelled from the spec: `dataBase.conversations.add(record)` — inserts,
returns the assigned id (spec §6). -/
def DataBase.conversationsAdd (db : DataBase) (d : ConversationData) : Nat × DataBase :=
  (db.nextConversationId,
   { db with
     conversations := db.conversations ++ [d.withId db.nextConversationId],
     nextConversationId := db.nextConversationId + 1 })

/-- Modelled from the spec: `dataBase.conversations.update(id, record)` —
whole-record replace by id; a missing id updates nothing (spec §6). -/
def DataBase.conversationsUpdate (db : DataBase) (key : Nat) (record : Conversation) : DataBase :=
  { db with
    conversations := db.conversations.map (fun item => if item.id == key then record else item) }

/-- Modelled from the spec: `dataBase.conversations.delete(id)` — removes a
single record by id (spec §6). -/
def DataBase.conversationsDelete (db : DataBase) (key : Nat) : DataBase :=
  { db with conversations := db.conversations.filter (fun item => item.id != key) }

/-- Modelled from the spec:
`dataBase.messages.where('conversationId').equals(id).delete()` — bulk
delete by equality predicate (spec §6). -/
def DataBase.messagesDeleteByConversationId (db : DataBase) (cid : Nat) : DataBase :=
  { db with messages := db.messages.filter (fun m => m.conversationId != cid) }

/-- Modelled from the spec:
`dataBase.messages.where('id').anyOf(ids).delete()` — bulk delete by
membership predicate (spec §6). -/
def DataBase.messagesDeleteByIds (db : DataBase) (ids : List Nat) : DataBase :=
  { db with messages := db.messages.filter (fun m => !(ids.contains m.id)) }

/-- The state visible to the store: the backing database plus the in-memory
mirror `conversations.value` (the `ref<Conversation[]>` of the Pinia
store). -/
structure StoreState where
  db : DataBase
  conversations : List Conversation
deriving Repr, DecidableEq

/-- `initialize()` (conversatons.ts lines 83–91): loads all conversations
into the mirror, loads all messages, computes the ids of messages whose
`conversationId` matches no loaded conversation, and — when that list is
non-empty — bulk-deletes exactly those messages from the store. -/
def initStore (s : StoreState) : StoreState :=
  let mirror := s.db.conversations
  let ids := mirror.map Conversation.id
  let msgs := s.db.messages
  let invalidId := (msgs.filter (fun item => !(ids.contains item.conversationId))).map Message.id
  let db := if invalidId.length ≠ 0 then s.db.messagesDeleteByIds invalidId else s.db
  { db := db, conversations := mirror }

/-- `getConversationById(id)` (lines 110–112): pure mirror lookup via
`Array.prototype.find`. -/
def getConversationById (s : StoreState) (id : Nat) : Option Conversation :=
  s.conversations.find? (fun item => item.id == id)

/-- `addConversation(conversation)` (lines 119–133): defaults `pinned` to
`false`, inserts into the backing store obtaining an assigned id, then
pushes `{ id, ...conversationWithPin }` onto the mirror; returns the id. -/
def addConversation (s : StoreState) (conversation : ConversationInput) : Nat × StoreState :=
  let conversationWithPin : ConversationData :=
    { name := conversation.name, model := conversation.model,
      pinned := conversation.pinned.getD false,
      createdAt := conversation.createdAt, updatedAt := conversation.updatedAt }
  let added := s.db.conversationsAdd conversationWithPin
  (added.1,
   { db := added.2,
     conversations := s.conversations ++ [conversationWithPin.withId added.1] })

/-- `delConversation(id)` (lines 141–145): awaits the bulk delete of the
messages with this `conversationId`, then deletes the conversation record,
then filters the mirror. -/
def delConversation (s : StoreState) (id : Nat) : StoreState :=
  let db1 := s.db.messagesDeleteByConversationId id
  let db2 := db1.conversationsDelete id
  { db := db2, conversations := s.conversations.filter (fun item => item.id != id) }

/-- `updateConversation(conversation, updateTime)` (lines 153–161): builds
`_newConversation` with `updatedAt` refreshed to `Date.now()` exactly when
`updateTime` is true, writes it to the store keyed by `conversation.id`,
and replaces the matching mirror entries by id.  `now` stands for the value
`Date.now()` would return. -/
def updateConversation (s : StoreState) (conversation : Conversation) (now : Nat)
    (updateTime : Bool) : StoreState :=
  let newConversation :=
    { conversation with updatedAt := if updateTime then now else conversation.updatedAt }
  { db := s.db.conversationsUpdate conversation.id newConversation,
    conversations := s.conversations.map
      (fun item => if item.id == conversation.id then newConversation else item) }

/-- `pinConversation(id)` (lines 168–176): looks the conversation up in the
mirror; when absent, no-op; otherwise delegates to `updateConversation`
with `pinned := true` and `updateTime = false`. -/
def pinConversation (s : StoreState) (id : Nat) (now : Nat) : StoreState :=
  match s.conversations.find? (fun item => item.id == id) with
  | none => s
  | some conversation => updateConversation s { conversation with pinned := true } now false

/-- `unpinConversation(id)` (lines 183–191): same as `pinConversation` with
`pinned := false`. -/
def unpinConversation (s : StoreState) (id : Nat) (now : Nat) : StoreState :=
  match s.conversations.find? (fun item => item.id == id) with
  | none => s
  | some conversation => updateConversation s { conversation with pinned := false } now false

/-- The common body of `pinConversation` and `unpinConversation`: find the
conversation in the mirror, no-op when absent, otherwise delegate to
`updateConversation` with the pinned flag set to `b` and
`updateTime = false`.  Both source functions are definitionally instances
of this with `b := true` / `b := false`. -/
def setPinnedStep (s : StoreState) (id : Nat) (now : Nat) (b : Bool) : StoreState :=
  match s.conversations.find? (fun item => item.id == id) with
  | none => s
  | some conversation => updateConversation s { conversation with pinned := b } now false

/-!
Sort preference (conversatons.ts lines 12–59, 98–103, 193).  The union
types `SortBy = 'updatedAt' | 'createAt' | 'name' | 'model'` and
`SortOrder = 'asc' | 'desc'` are embedded as the lists of their string
values — the strings are what `localStorage` stores and compares.
-/

/-- The values of the source union type `SortBy` (line 12). -/
def sortByValues : List String := ["updatedAt", "createAt", "name", "model"]

/-- The values of the source union type `SortOrder` (line 19). -/
def sortOrderValues : List String := ["asc", "desc"]

/-- The in-memory sort preference pair (the refs `sortBy`/`sortOrder`). -/
structure SortState where
  sortBy : String
  sortOrder : String
deriving Repr, DecidableEq

/-- Store setup (lines 52–59): read both keys from localStorage (`none`
when absent) and default to `'createAt'` / `'desc'` via `??`. -/
def initSortState (savedSortBy savedSortOrder : Option String) : SortState :=
  { sortBy := savedSortBy.getD "createAt", sortOrder := savedSortOrder.getD "desc" }

/-- `setSortMode(_sortBy, _sortOrder)` (lines 98–103): each field is
assigned only when it differs from the current value.  The returned flag
records whether any ref was written — exactly when the watch on
`[sortBy, sortOrder]` fires. -/
def setSortMode (st : SortState) (b o : String) : SortState × Bool :=
  let st1 := if st.sortBy ≠ b then { st with sortBy := b } else st
  let st2 := if st1.sortOrder ≠ o then { st1 with sortOrder := o } else st1
  (st2, decide (st.sortBy ≠ b) || decide (st.sortOrder ≠ o))

/-- The debounce delay of `saveSortMode` (line 40), in milliseconds. -/
def saveSortModeDelay : Nat := 300

/-- The sort-preference persistence machine: the refs, the single pending
debounce timer of `saveSortMode` (fire time and captured arguments — each
call clears the previous timer, utils `debounce`), and the writes
performed to localStorage so far, in order. -/
structure SortPersistState where
  sort : SortState
  timer : Option (Nat × SortState)
  writes : List SortState
deriving Repr, DecidableEq

/-- Fire the pending debounce timer if its fire time has been reached by
time `t`: the debounced body (lines 37–40) writes both keys. -/
def flushTimer (s : SortPersistState) (t : Nat) : SortPersistState :=
  match s.timer with
  | some (ft, args) =>
      if ft ≤ t then { s with timer := none, writes := s.writes ++ [args] } else s
  | none => s

/-- One `setSortMode` call at time `t`: any timer due by `t` has fired;
then the refs are updated, and when they changed the watch (line 193)
calls `saveSortMode` with the current pair, which cancels the pending
timer and schedules the write for `t + 300`. -/
def stepSetSortMode (s : SortPersistState) (t : Nat) (b o : String) : SortPersistState :=
  let s0 := flushTimer s t
  let result := setSortMode s0.sort b o
  if result.2 then
    { s0 with sort := result.1, timer := some (t + saveSortModeDelay, result.1) }
  else
    { s0 with sort := result.1 }

/-- Run a sequence of timed `setSortMode` calls. -/
def runSetSortModeCalls (s : SortPersistState) (calls : List (Nat × String × String)) :
    SortPersistState :=
  calls.foldl (fun acc c => stepSetSortMode acc c.1 c.2.1 c.2.2) s

/-- All localStorage writes the machine eventually performs once the event
loop goes quiet (the pending timer, if any, fires). -/
def eventualWrites (s : SortPersistState) : List SortState :=
  s.writes ++ (s.timer.map (fun tm => [tm.2])).getD []

/-!
Mutating-operation sequences, for the mirror–store agreement invariant.
-/

/-- One mutating store call: `addConversation`, `delConversation` or
`updateConversation` (`now` stands for `Date.now()` at the update). -/
inductive StoreOp where
  | add (conversation : ConversationInput)
  | del (id : Nat)
  | update (conversation : Conversation) (now : Nat) (updateTime : Bool)
deriving Repr

/-- Apply one mutating call to the store state. -/
def applyOp (s : StoreState) : StoreOp → StoreState
  | .add conversation => (addConversation s conversation).2
  | .del id => delConversation s id
  | .update conversation now updateTime => updateConversation s conversation now updateTime

/-- Apply a sequence of mutating calls in order. -/
def applyOps (s : StoreState) (ops : List StoreOp) : StoreState :=
  ops.foldl applyOp s

/-- Mirror–store agreement: the in-memory mirror holds exactly the
conversation records of the backing store. -/
def mirrorAgrees (s : StoreState) : Prop :=
  s.conversations = s.db.conversations

/-!
Concrete fixtures, following the scenario of spec §8: two conversations
with ids 1 and 2, one message referencing conversation 1 and one orphaned
message referencing the absent conversation 99.
-/

/-- Fixture: conversation with id 1. -/
def convA : Conversation := ⟨1, "a", "gpt", false, 100, 100⟩

/-- Fixture: conversation with id 2. -/
def convB : Conversation := ⟨2, "b", "gpt", false, 200, 200⟩

/-- Fixture: message 10, referencing conversation 1. -/
def msgA : Message := ⟨10, 1⟩

/-- Fixture: message 11, orphaned (references the absent conversation 99). -/
def msgOrphan : Message := ⟨11, 99⟩

/-- Fixture: database holding the two conversations and both messages. -/
def dbW : DataBase := ⟨[convA, convB], [msgA, msgOrphan], 3⟩

/-- Fixture: store state over `dbW` with an agreeing mirror. -/
def stW : StoreState := ⟨dbW, [convA, convB]⟩

/-- Fixture: an `addConversation` argument with `pinned` unset. -/
def inpW : ConversationInput := ⟨"c", "claude", none, 300, 300⟩

/-!
Helper lemmas.
-/

lemma initStore_db_conversations (s : StoreState) :
    (initStore s).db.conversations = s.db.conversations := by
  unfold initStore
  dsimp only
  split <;> rfl

/-- A message of the collection whose id escaped the orphan-id list has a
conversation id among the loaded conversation ids. -/
lemma orphan_not_kept (cids : List Nat) (msgs : List Message) (m : Message)
    (hm : m ∈ msgs)
    (hkeep : m.id ∉ (msgs.filter (fun x => !(cids.contains x.conversationId))).map Message.id) :
    m.conversationId ∈ cids := by
  by_contra hor
  apply hkeep
  refine List.mem_map.mpr ⟨m, List.mem_filter.mpr ⟨hm, ?_⟩, rfl⟩
  simp [List.contains] at hor ⊢
  exact hor

/-- Replacement by a predicate that matches nothing leaves a list
unchanged. -/
lemma map_if_no_match {α : Type} (l : List α) (p : α → Bool) (n : α)
    (h : ∀ x ∈ l, p x = false) :
    l.map (fun item => if p item then n else item) = l := by
  induction l with
  | nil => rfl
  | cons a t ih =>
    have ha := h a (List.mem_cons_self a t)
    simp [ha, ih (fun x hx => h x (List.mem_cons_of_mem a hx))]

lemma find?_append_none {α : Type} (l1 l2 : List α) (p : α → Bool) (h : l1.find? p = none) :
    (l1 ++ l2).find? p = l2.find? p := by
  rw [List.find?_append, h, Option.none_or]

/-- After replacing every match of `p` by a value `n` that itself matches,
a successful `find?` returns `n`. -/
lemma find?_map_replace {α : Type} (l : List α) (p : α → Bool) (n : α) (hn : p n = true)
    (h : (l.find? p).isSome) :
    (l.map (fun item => if p item then n else item)).find? p = some n := by
  induction l with
  | nil => simp [List.find?] at h
  | cons a t ih =>
    by_cases hp : p a
    · simp [List.find?_cons, hp, hn]
    · have h2 : (t.find? p).isSome := by
        simpa [List.find?_cons, hp] using h
      simp [List.find?_cons, hp, ih h2]

/-- Replacement by a matching value is idempotent. -/
lemma map_if_idem {α : Type} (l : List α) (p : α → Bool) (n : α) (hn : p n = true) :
    (l.map (fun item => if p item then n else item)).map
        (fun item => if p item then n else item)
      = l.map (fun item => if p item then n else item) := by
  rw [List.map_map]
  apply List.map_congr_left
  intro a _
  by_cases h : p a <;> simp [Function.comp, h, hn]

lemma pin_eq_setPinnedStep (s : StoreState) (id now : Nat) :
    pinConversation s id now = setPinnedStep s id now true := rfl

lemma unpin_eq_setPinnedStep (s : StoreState) (id now : Nat) :
    unpinConversation s id now = setPinnedStep s id now false := rfl

/-- Setting the pinned flag of a mirror-resident conversation twice leaves
exactly the state reached after setting it once. -/
lemma setPinnedStep_idem (s : StoreState) (id now now2 : Nat) (b : Bool)
    (h : (s.conversations.find? (fun item => item.id == id)).isSome) :
    setPinnedStep (setPinnedStep s id now b) id now2 b = setPinnedStep s id now b := by
  obtain ⟨c, hc⟩ := Option.isSome_iff_exists.mp h
  have hcid : c.id = id := by simpa using List.find?_some hc
  unfold setPinnedStep
  rw [hc]
  dsimp only
  unfold updateConversation DataBase.conversationsUpdate
  dsimp only
  rw [if_neg (by simp)]
  rw [hcid]
  rw [find?_map_replace s.conversations (fun item => item.id == id)
      ⟨id, c.name, c.model, b, c.createdAt, c.updatedAt⟩ (by simp) h]
  dsimp only
  rw [if_neg (by simp)]
  rw [map_if_idem s.db.conversations (fun item => item.id == id)
      ⟨id, c.name, c.model, b, c.createdAt, c.updatedAt⟩ (by simp)]
  rw [map_if_idem s.conversations (fun item => item.id == id)
      ⟨id, c.name, c.model, b, c.createdAt, c.updatedAt⟩ (by simp)]

/-- Each mutating operation writes the store and the mirror coherently:
agreement is preserved. -/
lemma mirrorAgrees_applyOp (s : StoreState) (op : StoreOp) (h : mirrorAgrees s) :
    mirrorAgrees (applyOp s op) := by
  cases op with
  | add conversation =>
    unfold mirrorAgrees at h ⊢
    simp [applyOp, addConversation, DataBase.conversationsAdd, h]
  | del id =>
    unfold mirrorAgrees at h ⊢
    simp [applyOp, delConversation, DataBase.conversationsDelete,
      DataBase.messagesDeleteByConversationId, h]
  | update conversation now updateTime =>
    unfold mirrorAgrees at h ⊢
    simp [applyOp, updateConversation, DataBase.conversationsUpdate, h]

/-- The wholesale rebuild during `initialize()` establishes agreement. -/
lemma initStore_mirrorAgrees (s : StoreState) : mirrorAgrees (initStore s) := by
  unfold mirrorAgrees
  rw [initStore_db_conversations]
  rfl

/-- C1: for every backing-store state, after `initialize()` (embedded as
`initStore`) completes its cleanup, every message still persisted in the
messages collection has a `conversationId` equal to the id of some
conversation in the conversations collection — all orphaned messages have
been deleted. -/
theorem c1_referential_integrity_after_init (s : StoreState) (m : Message)
    (hm : m ∈ (initStore s).db.messages) :
    ∃ c ∈ (initStore s).db.conversations, c.id = m.conversationId := by
  rw [initStore_db_conversations]
  unfold initStore at hm
  dsimp only at hm
  split at hm
  · rw [DataBase.messagesDeleteByIds] at hm
    have h2 := List.mem_filter.mp hm
    have hmem : m.conversationId ∈ s.db.conversations.map Conversation.id := by
      refine orphan_not_kept _ _ _ h2.1 ?_
      simpa using h2.2
    obtain ⟨c, hcmem, hcid⟩ := List.mem_map.mp hmem
    exact ⟨c, hcmem, hcid⟩
  · rename_i hlen
    push_neg at hlen
    have hnil : (s.db.messages.filter
        (fun item => !((s.db.conversations.map Conversation.id).contains item.conversationId))) = [] :=
      List.map_eq_nil_iff.mp (List.length_eq_zero.mp hlen)
    have hq := List.filter_eq_nil_iff.mp hnil m hm
    simp [List.contains] at hq
    exact hq

/-- C1 witness: in the spec §8 scenario (conversations 1 and 2, message 10
referencing 1 and message 11 referencing the absent 99), message 10
survives `initialize()` and its conversation exists. -/
theorem c1_witness :
    msgA ∈ (initStore ⟨dbW, []⟩).db.messages
    ∧ ∃ c ∈ (initStore ⟨dbW, []⟩).db.conversations, c.id = msgA.conversationId :=
  ⟨by decide, c1_referential_integrity_after_init ⟨dbW, []⟩ msgA (by decide)⟩

/-- C2: for a conversation `c` present in the store, after
`delConversation(c.id)` no message with `conversationId == c.id` remains in
the backing store, the conversation record is absent from the backing
store, `getConversationById(c.id)` returns the not-found signal `none`,
and the database passes through the message bulk delete before the
conversation record delete. -/
theorem c2_cascade_delete (s : StoreState) (c : Conversation)
    (_hc : c ∈ s.db.conversations) :
    (∀ m ∈ (delConversation s c.id).db.messages, m.conversationId ≠ c.id)
    ∧ (∀ x ∈ (delConversation s c.id).db.conversations, x.id ≠ c.id)
    ∧ getConversationById (delConversation s c.id) c.id = none
    ∧ (delConversation s c.id).db
        = (s.db.messagesDeleteByConversationId c.id).conversationsDelete c.id := by
  refine ⟨?_, ?_, ?_, rfl⟩
  · intro m hm
    unfold delConversation DataBase.conversationsDelete DataBase.messagesDeleteByConversationId at hm
    dsimp only at hm
    have h2 := (List.mem_filter.mp hm).2
    simpa [bne_iff_ne] using h2
  · intro x hx
    unfold delConversation DataBase.conversationsDelete DataBase.messagesDeleteByConversationId at hx
    dsimp only at hx
    have h2 := (List.mem_filter.mp hx).2
    simpa [bne_iff_ne] using h2
  · unfold getConversationById delConversation
    dsimp only
    rw [List.find?_eq_none]
    intro x hx
    have h2 := (List.mem_filter.mp hx).2
    simp only [bne_iff_ne] at h2
    simpa using h2

/-- C2 witness: deleting conversation 1 from the fixture store removes its
message, removes the record, and makes the lookup return `none`. -/
theorem c2_witness :
    convA ∈ stW.db.conversations
    ∧ ((∀ m ∈ (delConversation stW convA.id).db.messages, m.conversationId ≠ convA.id)
       ∧ (∀ x ∈ (delConversation stW convA.id).db.conversations, x.id ≠ convA.id)
       ∧ getConversationById (delConversation stW convA.id) convA.id = none
       ∧ (delConversation stW convA.id).db
           = (stW.db.messagesDeleteByConversationId convA.id).conversationsDelete convA.id) :=
  ⟨by decide, c2_cascade_delete stW convA (by decide)⟩

/-- C3: mirror–store agreement is an invariant — starting from any
initialized state, after every sequence of `addConversation`,
`delConversation` and `updateConversation` calls the in-memory mirror
holds exactly the conversation records of the backing store. -/
theorem c3_mirror_store_agreement (s : StoreState) (ops : List StoreOp) :
    mirrorAgrees (applyOps (initStore s) ops) := by
  suffices h : ∀ t : StoreState, mirrorAgrees t → mirrorAgrees (applyOps t ops) from
    h _ (initStore_mirrorAgrees s)
  induction ops with
  | nil => exact fun t ht => ht
  | cons op rest ih => exact fun t ht => ih _ (mirrorAgrees_applyOp t op ht)

/-- C4: `addConversation(x)` on a store whose next assigned id is fresh for
the mirror returns the id assigned by the backing store, and a subsequent
`getConversationById` on that id yields exactly `x` extended with the id,
with `pinned` defaulted to `false` when unset and all other fields passed
through unchanged. -/
theorem c4_add_round_trip (s : StoreState) (x : ConversationInput)
    (hfresh : ∀ c ∈ s.conversations, c.id ≠ s.db.nextConversationId) :
    (addConversation s x).1 = s.db.nextConversationId
    ∧ getConversationById (addConversation s x).2 (addConversation s x).1
        = some { id := s.db.nextConversationId, name := x.name, model := x.model,
                 pinned := x.pinned.getD false, createdAt := x.createdAt,
                 updatedAt := x.updatedAt } := by
  refine ⟨rfl, ?_⟩
  unfold getConversationById addConversation DataBase.conversationsAdd
  dsimp only
  rw [find?_append_none]
  · simp [ConversationData.withId, List.find?]
  · rw [List.find?_eq_none]
    intro c hcmem
    simpa using hfresh c hcmem

/-- C4 witness: adding a record with `pinned` unset to the fixture store
returns id 3 and round-trips with `pinned = false`. -/
theorem c4_witness :
    (∀ c ∈ stW.conversations, c.id ≠ stW.db.nextConversationId)
    ∧ ((addConversation stW inpW).1 = stW.db.nextConversationId
       ∧ getConversationById (addConversation stW inpW).2 (addConversation stW inpW).1
           = some { id := stW.db.nextConversationId, name := inpW.name, model := inpW.model,
                    pinned := inpW.pinned.getD false, createdAt := inpW.createdAt,
                    updatedAt := inpW.updatedAt }) :=
  ⟨by decide, c4_add_round_trip stW inpW (by decide)⟩

/-- C5: deleting an id absent from the store succeeds and leaves the
mirror unchanged, and a second `delConversation` on the same id right
after a first one changes nothing at all (the call is idempotent). -/
theorem c5_idempotent_delete (s : StoreState) (id : Nat)
    (hagree : s.conversations = s.db.conversations)
    (habs : ∀ c ∈ s.db.conversations, c.id ≠ id) :
    (delConversation s id).conversations = s.conversations
    ∧ delConversation (delConversation s id) id = delConversation s id := by
  constructor
  · unfold delConversation
    dsimp only
    rw [List.filter_eq_self.mpr]
    intro x hx
    rw [hagree] at hx
    simpa [bne_iff_ne] using habs x hx
  · unfold delConversation DataBase.conversationsDelete DataBase.messagesDeleteByConversationId
    simp [List.filter_filter, Bool.and_self]

/-- C5 witness: deleting the absent id 5 from the fixture store leaves the
mirror unchanged, and doing it twice equals doing it once. -/
theorem c5_witness :
    (stW.conversations = stW.db.conversations)
    ∧ (∀ c ∈ stW.db.conversations, c.id ≠ 5)
    ∧ ((delConversation stW 5).conversations = stW.conversations
       ∧ delConversation (delConversation stW 5) 5 = delConversation stW 5) :=
  ⟨by decide, by decide, c5_idempotent_delete stW 5 (by decide) (by decide)⟩

/-- C6: for a conversation id present in the mirror, `pinConversation`
leaves the record's `updatedAt` unchanged (it delegates to
`updateConversation` with `updateTime = false`), while
`updateConversation(record, true)` sets `updatedAt` to the current time —
a value greater than or equal to the previous `updatedAt` whenever the
clock has not gone backwards since the record was last stamped. -/
theorem c6_pin_preserves_updatedAt (s : StoreState) (id now now2 : Nat) (c : Conversation)
    (h : getConversationById s id = some c) (hnow : c.updatedAt ≤ now2) :
    ((getConversationById (pinConversation s id now) id).map Conversation.updatedAt
        = some c.updatedAt)
    ∧ ((getConversationById (updateConversation s c now2 true) id).map Conversation.updatedAt
        = some now2)
    ∧ c.updatedAt ≤ now2 := by
  have hfind : s.conversations.find? (fun item => item.id == id) = some c := h
  have hcid : c.id = id := by simpa using List.find?_some hfind
  have hsome : (s.conversations.find? (fun item => item.id == id)).isSome = true := by
    rw [hfind]; rfl
  refine ⟨?_, ?_, hnow⟩
  · unfold pinConversation
    rw [hfind]
    dsimp only
    unfold updateConversation DataBase.conversationsUpdate getConversationById
    dsimp only
    rw [if_neg (by simp)]
    rw [hcid]
    rw [find?_map_replace s.conversations (fun item => item.id == id)
        ⟨id, c.name, c.model, true, c.createdAt, c.updatedAt⟩ (by simp) hsome]
    rfl
  · unfold updateConversation DataBase.conversationsUpdate getConversationById
    dsimp only
    rw [hcid]
    rw [find?_map_replace s.conversations (fun item => item.id == id)
        ⟨id, c.name, c.model, c.pinned, c.createdAt, if true = true then now2 else c.updatedAt⟩
        (by simp) hsome]
    simp

/-- C6 witness: pinning fixture conversation 1 keeps `updatedAt = 100`,
while a timestamped update rewrites it to 500 ≥ 100. -/
theorem c6_witness :
    getConversationById stW 1 = some convA
    ∧ convA.updatedAt ≤ 500
    ∧ (((getConversationById (pinConversation stW 1 50) 1).map Conversation.updatedAt
          = some convA.updatedAt)
       ∧ ((getConversationById (updateConversation stW convA 500 true) 1).map
            Conversation.updatedAt = some 500)
       ∧ convA.updatedAt ≤ 500) :=
  ⟨by decide, by decide, c6_pin_preserves_updatedAt stW 1 50 500 convA (by decide) (by decide)⟩

/-- C7 counterexample: with nothing persisted in localStorage, the store's
initial `sortBy` is the source literal `'createAt'`, not `'createdAt'` as
the claim states — and `'createdAt'` is not even a value of the source
`SortBy` union. -/
theorem c7_counterexample :
    (initSortState none none).sortBy ≠ "createdAt" ∧ "createdAt" ∉ sortByValues := by
  decide

/-- C7 (amended): the sort preference is a pair with `sortBy` drawn from
the source union `{updatedAt, createAt, name, model}` and `sortOrder` from
`{asc, desc}`, and when no persisted value is present the initial sort
mode is `(createAt, desc)`. -/
theorem c7_sort_preference_default :
    initSortState none none = ⟨"createAt", "desc"⟩
    ∧ (initSortState none none).sortBy ∈ sortByValues
    ∧ (initSortState none none).sortOrder ∈ sortOrderValues := by
  decide

/-- C8: `setSortMode` writes the in-memory refs exactly when the new pair
differs from the current one, and three `setSortMode('name','asc')` calls
50ms apart — within the 300ms debounce window — coalesce trailing-edge
into exactly one persisted write carrying the last call's values. -/
theorem c8_debounced_sort_persistence :
    (∀ (st : SortState) (b o : String),
        (setSortMode st b o).1 = ⟨b, o⟩
        ∧ ((setSortMode st b o).2 = false ↔ st = ⟨b, o⟩))
    ∧ eventualWrites (runSetSortModeCalls ⟨initSortState none none, none, []⟩
          [(0, "name", "asc"), (50, "name", "asc"), (100, "name", "asc")])
        = [⟨"name", "asc"⟩] := by
  constructor
  · intro st b o
    obtain ⟨sb, so⟩ := st
    by_cases h1 : sb = b <;> by_cases h2 : so = o <;>
      simp [setSortMode, h1, h2]
  · decide

/-- C9: for an id present in the mirror, `pinConversation` twice in
succession leaves the mirror and the backing store exactly as one call
does, and likewise `unpinConversation`. -/
theorem c9_pin_unpin_idempotent (s : StoreState) (id now now2 : Nat)
    (h : (getConversationById s id).isSome) :
    pinConversation (pinConversation s id now) id now2 = pinConversation s id now
    ∧ unpinConversation (unpinConversation s id now) id now2 = unpinConversation s id now := by
  have h2 : (s.conversations.find? (fun item => item.id == id)).isSome = true := h
  constructor
  · simp only [pin_eq_setPinnedStep]
    exact setPinnedStep_idem s id now now2 true h2
  · simp only [unpin_eq_setPinnedStep]
    exact setPinnedStep_idem s id now now2 false h2

/-- C9 witness: pinning (and unpinning) fixture conversation 1 twice
equals doing it once. -/
theorem c9_witness :
    (getConversationById stW 1).isSome
    ∧ (pinConversation (pinConversation stW 1 50) 1 60 = pinConversation stW 1 50
       ∧ unpinConversation (unpinConversation stW 1 50) 1 60 = unpinConversation stW 1 50) :=
  ⟨by decide, c9_pin_unpin_idempotent stW 1 50 60 (by decide)⟩

/-- C10: `updateConversation` on a conversation whose id matches no mirror
entry leaves the mirror's contents unchanged — the by-id replacement
touches only an existing matching entry. -/
theorem c10_update_absent_id_leaves_mirror (s : StoreState) (conversation : Conversation)
    (now : Nat) (updateTime : Bool)
    (h : ∀ x ∈ s.conversations, x.id ≠ conversation.id) :
    (updateConversation s conversation now updateTime).conversations = s.conversations := by
  unfold updateConversation
  dsimp only
  apply map_if_no_match
  intro x hx
  simpa using h x hx

/-- C10 witness: updating the absent id 77 leaves the fixture mirror
unchanged. -/
theorem c10_witness :
    (∀ x ∈ stW.conversations, x.id ≠ 77)
    ∧ (updateConversation stW ⟨77, "x", "gpt", false, 1, 1⟩ 500 true).conversations
        = stW.conversations :=
  ⟨by decide, c10_update_absent_id_leaves_mirror stW ⟨77, "x", "gpt", false, 1, 1⟩ 500 true
    (by decide)⟩

end ElectorAI
